import Mathlib

set_option maxRecDepth 100000

/-!
Shallow embedding of the journio socket server (a socket.io direct-messaging
backend).  The source files embedded here are:

* `src/lib/conversation.ts` — `getOrCreateConversation`, `addMessage`;
* `src/model/message.model.ts` — the Message schema (`seen` defaults to false);
* the main server file (`src/unnamed/part_000`) — the auth middleware
  (`io.use`) and the three socket event handlers `join_conversation`,
  `send_message` and `message_read`.

The Durable Store (MongoDB via mongoose) is an external collaborator; it is
modelled as an in-memory list of conversations and messages with a counter
supplying fresh identifiers, which is all the source relies on
(create / findById / findOne with an `all`-style participant match /
updateMany / findByIdAndUpdate).  JavaScript string fields use `String`,
where the empty string plays the role of a missing or falsy field, exactly
matching the source's truthiness checks (`!conversationId`, `!content`,
`!accessToken`).  Side effects (socket emits, room joins, room broadcasts,
store update calls, console logging) are recorded in order in a trace of
`Effect`s, so that the order and the arguments of each outbound call are
visible to the theorems.
-/

/-- A conversation document: `_id`, `participants` (created with exactly two
entries), and the optional `lastMessage` pointer. -/
structure Conversation where
  id : String
  participants : List String
  lastMessage : Option String
deriving Repr, DecidableEq

/-- A message document, per `messageSchema`: owning conversation, sender,
receiver, content, the `seen` flag (defaults to false at creation) and the
store-assigned creation timestamp. -/
structure Message where
  id : String
  conversationId : String
  sender : String
  receiver : String
  content : String
  seen : Bool
  createdAt : Nat
deriving Repr, DecidableEq

/-- The durable store: the two collections plus counters from which fresh
identifiers and creation timestamps are drawn. -/
structure Store where
  conversations : List Conversation
  messages : List Message
  nextConvId : Nat
  nextMsgId : Nat
deriving Repr, DecidableEq

/-- Fresh conversation identifier for counter value `n`. -/
def genConvId (n : Nat) : String := "conv" ++ Nat.repr n

/-- Fresh message identifier for counter value `n`. -/
def genMsgId (n : Nat) : String := "msg" ++ Nat.repr n

/-- `Conversation.findById`: first conversation whose id matches. -/
def findById (cs : List Conversation) (id : String) : Option Conversation :=
  cs.find? (fun c => c.id == id)

/-- `mongoose.isValidObjectId` on a string: a 12-character string, or a
24-character hexadecimal string. -/
def isHexDigit (c : Char) : Bool :=
  c.isDigit || ("a".front ≤ c && c ≤ "f".front) || ("A".front ≤ c && c ≤ "F".front)

/-- Well-formedness of a client-supplied identifier, as checked by the
`message_read` handler. -/
def isValidObjectId (s : String) : Bool :=
  s.length == 12 || (s.length == 24 && s.toList.all isHexDigit)

/-- `getOrCreateConversation(userId1, userId2)` from `src/lib/conversation.ts`:
`findOne` with an `all`-match on both participants; when none is found,
`create` with `participants = [userId1, userId2]`. -/
def getOrCreateConversation (st : Store) (userId1 userId2 : String) :
    Store × Conversation :=
  match st.conversations.find?
      (fun c => c.participants.contains userId1 && c.participants.contains userId2) with
  | some conversation => (st, conversation)
  | none =>
    let conversation : Conversation :=
      { id := genConvId st.nextConvId
        participants := [userId1, userId2]
        lastMessage := none }
    ({ st with
        conversations := st.conversations ++ [conversation]
        nextConvId := st.nextConvId + 1 },
     conversation)

/-- `addMessage(conversationId, senderId, receiverId, content)` from
`src/lib/conversation.ts`: `Message.create` (with `seen` defaulting to false
per the schema) followed by `Conversation.findByIdAndUpdate` setting
`lastMessage` to the new message's id.  Returns the created message. -/
def addMessage (st : Store) (conversationId senderId receiverId content : String) :
    Store × Message :=
  let message : Message :=
    { id := genMsgId st.nextMsgId
      conversationId := conversationId
      sender := senderId
      receiver := receiverId
      content := content
      seen := false
      createdAt := st.nextMsgId }
  let st1 : Store :=
    { st with messages := st.messages ++ [message], nextMsgId := st.nextMsgId + 1 }
  let st2 : Store :=
    { st1 with
        conversations := st1.conversations.map
          (fun c => if c.id == conversationId
                    then { c with lastMessage := some message.id } else c) }
  (st2, message)

/-- The message representation broadcast and acked by `send_message`: the
persisted message's fields plus the echoed `localId` (null when absent). -/
structure MessageOut where
  message : Message
  localId : Option String
deriving Repr, DecidableEq

/-- Acknowledgment payload for `send_message`: `ok: true` with the message, or
`ok: false` with an error string. -/
inductive AckRes where
  | ok (message : MessageOut)
  | fail (error : String)
deriving Repr, DecidableEq

/-- Server-to-client protocol event payloads. -/
inductive Emitted where
  | receiveMessage (out : MessageOut)
  | newMessageNotification (conversationId fromId messageId snippet : String)
      (createdAt : Nat)
  | messageSeen (conversationId : String) (messageIds : List String) (byId : String)
  | joinedConversation (conversationId : String)
  | joinError (message : String)
deriving Repr, DecidableEq

/-- One observable side effect of a handler, in program order: an ack callback
invocation, a `socket.emit` to the calling connection, a `socket.join`, a
room broadcast (`io.to(room).emit`, covering both conversation rooms and user
channels), the `Message.updateMany` store call with its raw argument list, or
a `console.error` log line. -/
inductive Effect where
  | ackCall (res : AckRes)
  | emitSelf (ev : Emitted)
  | joinRoom (room : String)
  | roomEmit (room : String) (ev : Emitted)
  | updateSeenCall (messageIds : List String) (conversationId : String)
  | logErr (msg : String)
deriving Repr, DecidableEq

/-- Whether an effect is an invocation of the ack callback. -/
def Effect.isAck : Effect → Bool
  | .ackCall _ => true
  | _ => false

/-- Whether an effect is a room broadcast. -/
def Effect.isBroadcast : Effect → Bool
  | .roomEmit _ _ => true
  | _ => false

/-- The `join_conversation` handler.  Payload fields are strings with `""`
for an absent field, matching the source's falsy checks.  When
`conversationId` is absent it requires `otherUserId` and resolves the
conversation via `getOrCreateConversation`; otherwise it fetches the
conversation and checks that the caller is among its participants. -/
def joinConversation (st : Store) (userId conversationId otherUserId : String) :
    Store × List Effect :=
  if conversationId == "" then
    if otherUserId == "" then
      (st, [.emitSelf (.joinError "otherUserId required if no conversationId")])
    else
      let r := getOrCreateConversation st userId otherUserId
      (r.1, [.joinRoom ("conversation:" ++ r.2.id),
             .emitSelf (.joinedConversation r.2.id)])
  else
    match findById st.conversations conversationId with
    | none => (st, [.emitSelf (.joinError "Not authorized to join conversation")])
    | some conv =>
      if conv.participants.contains userId then
        (st, [.joinRoom ("conversation:" ++ conversationId),
              .emitSelf (.joinedConversation conversationId)])
      else
        (st, [.emitSelf (.joinError "Not authorized to join conversation")])

/-- The `send_message` handler.  `hasAck` records whether the client supplied
an acknowledgment callback (`ack?`); every `ack(...)` call in the source is
guarded by its presence.  `persistOk` is the oracle for whether the awaited
persistence succeeds; when it fails the catch block logs and, if present,
invokes the ack with a failure. -/
def sendMessage (st : Store) (userId conversationId content : String)
    (localId : Option String) (hasAck persistOk : Bool) : Store × List Effect :=
  if conversationId == "" || content == "" then
    (st, if hasAck then [.ackCall (.fail "Invalid payload")] else [])
  else
    match findById st.conversations conversationId with
    | none => (st, if hasAck then [.ackCall (.fail "Not a participant")] else [])
    | some conv =>
      if !(conv.participants.contains userId) then
        (st, if hasAck then [.ackCall (.fail "Not a participant")] else [])
      else
        match conv.participants.find? (fun p => p != userId) with
        | none => (st, if hasAck then [.ackCall (.fail "No other participant")] else [])
        | some other =>
          if persistOk then
            let r := addMessage st conv.id userId other content
            let out : MessageOut := { message := r.2, localId := localId }
            (r.1,
             [.roomEmit ("conversation:" ++ conversationId) (.receiveMessage out),
              .roomEmit ("user:" ++ other)
                (.newMessageNotification conversationId userId r.2.id
                  (r.2.content.take 120) r.2.createdAt)]
             ++ (if hasAck then [.ackCall (.ok out)] else []))
          else
            (st, [.logErr "send_message error"]
                 ++ (if hasAck then [.ackCall (.fail "store error")] else []))

/-- The store mutation performed by `Message.updateMany` in `message_read`:
set `seen := true` on every message whose id is in the given raw id list and
whose `conversationId` matches. -/
def updateManySeen (ms : List Message) (messageIds : List String)
    (conversationId : String) : List Message :=
  ms.map (fun m =>
    if messageIds.contains m.id && m.conversationId == conversationId
    then { m with seen := true } else m)

/-- The `message_read` handler: no-op on a missing `conversationId` or empty
`messageIds`; silent return when the conversation is missing or the caller is
not a participant; filters the ids to well-formed ones and, if any remain,
issues the `updateMany` against the ORIGINAL unfiltered list; finally
broadcasts `message_seen` to the conversation room. -/
def messageRead (st : Store) (userId conversationId : String)
    (messageIds : List String) : Store × List Effect :=
  if conversationId == "" || messageIds.length == 0 then (st, [])
  else
    match findById st.conversations conversationId with
    | none => (st, [])
    | some conv =>
      if !(conv.participants.contains userId) then (st, [])
      else
        let validIds := messageIds.filter isValidObjectId
        let r : Store × List Effect :=
          if validIds.length > 0 then
            ({ st with messages := updateManySeen st.messages messageIds conversationId },
             [Effect.updateSeenCall messageIds conversationId])
          else (st, [])
        (r.1, r.2 ++
          [.roomEmit ("conversation:" ++ conversationId)
            (.messageSeen conversationId messageIds userId)])

/-- Handshake-time auth errors. -/
inductive AuthError where
  | Unauthorized
  | Forbidden
deriving Repr, DecidableEq

/-- The `io.use` auth middleware: reads the `accessToken` cookie (empty string
when absent), rejects with `Unauthorized` when falsy, otherwise verifies the
token — `verify` abstracts `jwt.verify`, returning the decoded `_id` or
`none` when verification throws — rejecting with `Forbidden` on failure. -/
def verifyConnection (cookieToken : Option String)
    (verify : String → Option String) : Except AuthError String :=
  let accessToken := cookieToken.getD ""
  if accessToken == "" then .error .Unauthorized
  else
    match verify accessToken with
    | some uid => .ok uid
    | none => .error .Forbidden

/-- A client-initiated protocol operation. -/
inductive ClientOp where
  | joinConv (conversationId otherUserId : String)
  | sendMsg (conversationId content : String) (localId : Option String)
      (hasAck persistOk : Bool)
  | msgRead (conversationId : String) (messageIds : List String)
deriving Repr, DecidableEq

/-- Dispatch of one operation by an authenticated session. -/
def handleOp (st : Store) (userId : String) : ClientOp → Store × List Effect
  | .joinConv cid ouid => joinConversation st userId cid ouid
  | .sendMsg cid content localId hasAck persistOk =>
      sendMessage st userId cid content localId hasAck persistOk
  | .msgRead cid ids => messageRead st userId cid ids

/-- Sequential processing of a connection's operations. -/
def runOps (st : Store) (userId : String) : List ClientOp → Store × List Effect
  | [] => (st, [])
  | op :: rest =>
    let r := handleOp st userId op
    let r' := runOps r.1 userId rest
    (r'.1, r.2 ++ r'.2)

/-- A whole connection: the middleware gates it; only a connection whose
handshake verification succeeded joins its user channel and has the three
event handlers registered.  A rejected connection produces no effects and
triggers no handler. -/
def serverSession (verify : String → Option String) (cookieToken : Option String)
    (st : Store) (ops : List ClientOp) : Store × List Effect :=
  match verifyConnection cookieToken verify with
  | .error _ => (st, [])
  | .ok userId =>
    let r := runOps st userId ops
    (r.1, Effect.joinRoom ("user:" ++ userId) :: r.2)

/-- The empty store. -/
def emptyStore : Store := ⟨[], [], 0, 0⟩

/-- A sequence of sequential `getOrCreateConversation` calls for the pair
`(A, B)`: each boolean chooses the argument order, `true` for `(A, B)` and
`false` for `(B, A)`.  Returns the final store and the list of returned
conversation identifiers, in call order. -/
def iterCalls (A B : String) : List Bool → Store → Store × List String
  | [], st => (st, [])
  | b :: rest, st =>
    let r := if b then getOrCreateConversation st A B
             else getOrCreateConversation st B A
    let r' := iterCalls A B rest r.1
    (r'.1, r.2.id :: r'.2)

/-- Whether a conversation's participant set is exactly the unordered pair
of `A` and `B`. -/
def sameParticipantSet (c : Conversation) (A B : String) : Bool :=
  c.participants.contains A && c.participants.contains B &&
    c.participants.all (fun p => p == A || p == B)

/-- A message evolves admissibly when it is unchanged or only its `seen` flag
has been switched on. -/
def onlySeenSet (m m' : Message) : Prop :=
  m' = m ∨ m' = { m with seen := true }

/-- Admissible evolution of the message collection across one operation: the
pre-existing messages evolve pointwise by `onlySeenSet` (in place, in order)
and any freshly appended messages start with `seen = false`. -/
def msgsEvolve (old new : List Message) : Prop :=
  ∃ upd fresh, new = upd ++ fresh ∧ List.Forall₂ onlySeenSet old upd ∧
    ∀ m ∈ fresh, m.seen = false

/-- A small concrete store used to instantiate the theorems: one conversation
between `u1` and `u2`, no messages yet. -/
def demoStore : Store := ⟨[⟨"c0", ["u1", "u2"], none⟩], [], 1, 0⟩

/-- `demoStore` with one unseen and one seen message. -/
def demoStoreMsgs : Store :=
  ⟨[⟨"c0", ["u1", "u2"], none⟩],
   [⟨"aaaaaaaaaaaa", "c0", "u1", "u2", "hi", false, 0⟩,
    ⟨"bbbbbbbbbbbb", "c0", "u2", "u1", "yo", true, 1⟩], 1, 2⟩

/-- Any conversation in the post-`addMessage` collection whose id is the
updated one carries the fresh message id in `lastMessage`. -/
theorem lastMessage_of_update (cs : List Conversation) (cid mid : String)
    (c : Conversation)
    (hc : c ∈ cs.map (fun c => if c.id == cid
                               then { c with lastMessage := some mid } else c))
    (hid : c.id = cid) : c.lastMessage = some mid := by
  rw [List.mem_map] at hc
  obtain ⟨a, -, rfl⟩ := hc
  by_cases hb : a.id = cid
  · have hb' : (a.id == cid) = true := beq_iff_eq.mpr hb
    simp [hb']
  · have hb' : (a.id == cid) = false := beq_eq_false_iff_ne.mpr hb
    simp only [hb', Bool.false_eq_true, if_false] at hid
    exact absurd hid hb

/-- C7: `addMessage(conversationId, sender, receiver, content)` creates a
Message row with exactly those fields associated with `conversationId`, then
updates that conversation's `lastMessage` to the new message's id, and
returns the created message; afterwards the conversation's `lastMessage`
equals the most recently persisted message's identifier. -/
theorem addMessage_sets_lastMessage (st : Store) (cid s r content : String) :
    ((addMessage st cid s r content).2).conversationId = cid ∧
    ((addMessage st cid s r content).2).sender = s ∧
    ((addMessage st cid s r content).2).receiver = r ∧
    ((addMessage st cid s r content).2).content = content ∧
    ((addMessage st cid s r content).2).seen = false ∧
    (addMessage st cid s r content).1.messages =
      st.messages ++ [(addMessage st cid s r content).2] ∧
    (addMessage st cid s r content).1.messages.getLast? =
      some (addMessage st cid s r content).2 ∧
    ∀ c ∈ (addMessage st cid s r content).1.conversations, c.id = cid →
      c.lastMessage = some ((addMessage st cid s r content).2).id := by
  refine ⟨rfl, rfl, rfl, rfl, rfl, rfl, ?_, ?_⟩
  · simp [addMessage]
  · intro c hc hid
    exact lastMessage_of_update _ _ _ _ hc hid

/-- C7 witness: instantiation on the demo store. -/
theorem addMessage_sets_lastMessage_witness :
    ((addMessage demoStore "c0" "u1" "u2" "hi").2).conversationId = "c0" ∧
    ((addMessage demoStore "c0" "u1" "u2" "hi").2).sender = "u1" ∧
    ((addMessage demoStore "c0" "u1" "u2" "hi").2).receiver = "u2" ∧
    ((addMessage demoStore "c0" "u1" "u2" "hi").2).content = "hi" ∧
    ((addMessage demoStore "c0" "u1" "u2" "hi").2).seen = false ∧
    (addMessage demoStore "c0" "u1" "u2" "hi").1.messages =
      demoStore.messages ++ [(addMessage demoStore "c0" "u1" "u2" "hi").2] ∧
    (addMessage demoStore "c0" "u1" "u2" "hi").1.messages.getLast? =
      some (addMessage demoStore "c0" "u1" "u2" "hi").2 ∧
    ∀ c ∈ (addMessage demoStore "c0" "u1" "u2" "hi").1.conversations,
      c.id = "c0" →
      c.lastMessage = some ((addMessage demoStore "c0" "u1" "u2" "hi").2).id :=
  addMessage_sets_lastMessage demoStore "c0" "u1" "u2" "hi"

/-- C5 (amended): on an empty or missing `conversationId` or `content`, the
store is unchanged and no broadcast happens; the failure ack `{ok: false}` is
delivered exactly when the client supplied an ack callback. -/
theorem send_message_invalid_payload_no_write_no_broadcast
    (st : Store) (userId cid content : String) (localId : Option String)
    (hasAck persistOk : Bool) (h : cid = "" ∨ content = "") :
    (sendMessage st userId cid content localId hasAck persistOk).1 = st ∧
    (sendMessage st userId cid content localId hasAck persistOk).2 =
      (if hasAck then [Effect.ackCall (.fail "Invalid payload")] else []) ∧
    ∀ e ∈ (sendMessage st userId cid content localId hasAck persistOk).2,
      e.isBroadcast = false := by
  have hcond : (cid == "" || content == "") = true := by
    rcases h with h | h <;> simp [h]
  cases hasAck <;> simp [sendMessage, hcond, Effect.isBroadcast]

/-- C5 witness: empty `conversationId` with an ack callback present. -/
theorem send_message_invalid_payload_witness :
    (sendMessage demoStore "u1" "" "hi" none true true).1 = demoStore ∧
    (sendMessage demoStore "u1" "" "hi" none true true).2 =
      (if true then [Effect.ackCall (.fail "Invalid payload")] else []) ∧
    ∀ e ∈ (sendMessage demoStore "u1" "" "hi" none true true).2,
      e.isBroadcast = false :=
  send_message_invalid_payload_no_write_no_broadcast demoStore "u1" "" "hi"
    none true true (Or.inl rfl)

/-- C5 counterexample: a `send_message` invocation with an empty
`conversationId` but no ack callback is NOT acknowledged at all, refuting the
claim that every such invocation is acknowledged with `{ok: false}`. -/
theorem send_message_invalid_payload_cex :
    ¬ ∃ res, Effect.ackCall res ∈
      (sendMessage demoStore "u1" "" "hi" none false true).2 := by
  simp [sendMessage]

/-- C1 (amended): on a successful `send_message` (valid payload, participant
caller, other participant found, persistence succeeds, ack callback present)
the side effects occur in this order: first `receive_message(output)` is
broadcast to the conversation room, then the `new_message_notification` is
sent to the other participant's user channel, and last the calling connection
is acknowledged with `{ok: true, message: output}`. -/
theorem send_message_success_effect_order
    (st : Store) (userId cid content : String) (localId : Option String)
    (conv : Conversation) (other : String)
    (h1 : cid ≠ "") (h2 : content ≠ "")
    (h3 : findById st.conversations cid = some conv)
    (h4 : conv.participants.contains userId = true)
    (h5 : conv.participants.find? (fun p => p != userId) = some other) :
    (sendMessage st userId cid content localId true true).2 =
      [Effect.roomEmit ("conversation:" ++ cid)
         (.receiveMessage ⟨(addMessage st conv.id userId other content).2, localId⟩),
       Effect.roomEmit ("user:" ++ other)
         (.newMessageNotification cid userId
           (addMessage st conv.id userId other content).2.id
           ((addMessage st conv.id userId other content).2.content.take 120)
           (addMessage st conv.id userId other content).2.createdAt),
       Effect.ackCall
         (.ok ⟨(addMessage st conv.id userId other content).2, localId⟩)] := by
  have hc : (cid == "" || content == "") = false := by simp [h1, h2]
  have hmem : userId ∈ conv.participants := by simpa using h4
  simp [sendMessage, hc, h3, hmem, h5]

/-- C1 witness: the concrete successful send on the demo store, with the
effects spelled out. -/
theorem send_message_success_effect_order_witness :
    (sendMessage demoStore "u1" "c0" "hi" (some "x1") true true).2 =
      [Effect.roomEmit "conversation:c0"
         (.receiveMessage ⟨⟨"msg0", "c0", "u1", "u2", "hi", false, 0⟩, some "x1"⟩),
       Effect.roomEmit "user:u2"
         (.newMessageNotification "c0" "u1" "msg0" "hi" 0),
       Effect.ackCall
         (.ok ⟨⟨"msg0", "c0", "u1", "u2", "hi", false, 0⟩, some "x1"⟩)] := by
  rw [send_message_success_effect_order demoStore "u1" "c0" "hi" (some "x1")
    ⟨"c0", ["u1", "u2"], none⟩ "u2" (by decide) (by decide) rfl rfl rfl]
  rfl

/-- C1 counterexample: on the demo store the effect trace is NOT
ack-broadcast-notification as claimed; the acknowledgment comes last, not
first. -/
theorem send_message_effect_order_cex :
    (sendMessage demoStore "u1" "c0" "hi" (some "x1") true true).2 ≠
      [Effect.ackCall
         (.ok ⟨⟨"msg0", "c0", "u1", "u2", "hi", false, 0⟩, some "x1"⟩),
       Effect.roomEmit "conversation:c0"
         (.receiveMessage ⟨⟨"msg0", "c0", "u1", "u2", "hi", false, 0⟩, some "x1"⟩),
       Effect.roomEmit "user:u2"
         (.newMessageNotification "c0" "u1" "msg0" "hi" 0)] := by
  decide

/-- C10: `send_message` without an ack callback performs the same store
transition and the same non-ack effects (membership check outcome,
persistence, both broadcasts, error logging) as with a callback, but never
invokes an acknowledgment, on success and on every failure path alike. -/
theorem send_message_ack_optional
    (st : Store) (userId cid content : String) (localId : Option String)
    (persistOk : Bool) :
    (sendMessage st userId cid content localId false persistOk).1 =
      (sendMessage st userId cid content localId true persistOk).1 ∧
    (sendMessage st userId cid content localId false persistOk).2 =
      (sendMessage st userId cid content localId true persistOk).2.filter
        (fun e => !e.isAck) ∧
    ∀ e ∈ (sendMessage st userId cid content localId false persistOk).2,
      e.isAck = false := by
  by_cases h0 : (cid == "" || content == "") = true
  · simp [sendMessage, h0, Effect.isAck]
  · have h0' : (cid == "" || content == "") = false := by
      simpa using h0
    cases hfb : findById st.conversations cid with
    | none => simp [sendMessage, h0', hfb, Effect.isAck]
    | some conv =>
      by_cases hmem : userId ∈ conv.participants
      · cases hfo : conv.participants.find? (fun p => p != userId) with
        | none => simp [sendMessage, h0', hfb, hmem, hfo, Effect.isAck]
        | some other =>
          cases persistOk <;>
            simp [sendMessage, h0', hfb, hmem, hfo, Effect.isAck]
      · simp [sendMessage, h0', hfb, hmem, Effect.isAck]

/-- C10 witness: instantiation on the demo store (successful-send path). -/
theorem send_message_ack_optional_witness :
    (sendMessage demoStore "u1" "c0" "hi" none false true).1 =
      (sendMessage demoStore "u1" "c0" "hi" none true true).1 ∧
    (sendMessage demoStore "u1" "c0" "hi" none false true).2 =
      (sendMessage demoStore "u1" "c0" "hi" none true true).2.filter
        (fun e => !e.isAck) ∧
    ∀ e ∈ (sendMessage demoStore "u1" "c0" "hi" none false true).2,
      e.isAck = false :=
  send_message_ack_optional demoStore "u1" "c0" "hi" none true

/-- C2: in `message_read` with a participant caller, a present
`conversationId` and a non-empty `messageIds`, the update call is issued if
and only if at least one well-formed id remains after filtering, and any
issued update carries the ORIGINAL unfiltered `messageIds` list, scoped to
`conversationId`. -/
theorem message_read_update_unfiltered
    (st : Store) (userId cid : String) (ids : List String) (conv : Conversation)
    (h1 : cid ≠ "") (h2 : ids ≠ [])
    (h3 : findById st.conversations cid = some conv)
    (h4 : conv.participants.contains userId = true) :
    (messageRead st userId cid ids).2 =
      (if (ids.filter isValidObjectId).length > 0
       then [Effect.updateSeenCall ids cid] else []) ++
      [Effect.roomEmit ("conversation:" ++ cid) (.messageSeen cid ids userId)] ∧
    ((∃ l c, Effect.updateSeenCall l c ∈ (messageRead st userId cid ids).2) ↔
      ids.filter isValidObjectId ≠ []) ∧
    (∀ l c, Effect.updateSeenCall l c ∈ (messageRead st userId cid ids).2 →
      l = ids ∧ c = cid) := by
  have hb1 : (cid == "") = false := beq_eq_false_iff_ne.mpr h1
  have hb2 : (ids.length == 0) = false :=
    beq_eq_false_iff_ne.mpr (fun h => h2 (List.length_eq_zero.mp h))
  have hmem : userId ∈ conv.participants := by simpa using h4
  by_cases hv : (ids.filter isValidObjectId).length > 0
  · have hne : ids.filter isValidObjectId ≠ [] := by
      intro h
      rw [h] at hv
      exact Nat.lt_irrefl 0 hv
    simp [messageRead, hb1, hb2, h3, hmem, hv, hne]
  · have heq : ids.filter isValidObjectId = [] := by
      cases h : ids.filter isValidObjectId with
      | nil => rfl
      | cons a l => exact absurd (by simp [h]) hv
    simp [messageRead, hb1, hb2, h3, hmem, hv, heq]

/-- C2 witness: one malformed and one well-formed id; the update call is
issued and carries both raw ids. -/
theorem message_read_update_unfiltered_witness :
    (messageRead demoStore "u2" "c0" ["zz", "aaaaaaaaaaaa"]).2 =
      (if ((["zz", "aaaaaaaaaaaa"].filter isValidObjectId).length > 0)
       then [Effect.updateSeenCall ["zz", "aaaaaaaaaaaa"] "c0"] else []) ++
      [Effect.roomEmit ("conversation:" ++ "c0")
        (.messageSeen "c0" ["zz", "aaaaaaaaaaaa"] "u2")] ∧
    ((∃ l c, Effect.updateSeenCall l c ∈
        (messageRead demoStore "u2" "c0" ["zz", "aaaaaaaaaaaa"]).2) ↔
      ["zz", "aaaaaaaaaaaa"].filter isValidObjectId ≠ []) ∧
    (∀ l c, Effect.updateSeenCall l c ∈
        (messageRead demoStore "u2" "c0" ["zz", "aaaaaaaaaaaa"]).2 →
      l = ["zz", "aaaaaaaaaaaa"] ∧ c = "c0") :=
  message_read_update_unfiltered demoStore "u2" "c0" ["zz", "aaaaaaaaaaaa"]
    ⟨"c0", ["u1", "u2"], none⟩ (by decide) (by decide) rfl rfl

/-- C6: `join_conversation` error paths.  With a supplied `conversationId`,
a missing conversation or a non-participant caller yields exactly a
`join_error` emission, an unchanged store, and no room join; with both
`conversationId` and `otherUserId` absent, the caller gets the
invalid-payload `join_error` and joins no room. -/
theorem join_conversation_error_paths :
    (∀ (st : Store) (userId cid ouid : String), cid ≠ "" →
      findById st.conversations cid = none →
      joinConversation st userId cid ouid =
        (st, [.emitSelf (.joinError "Not authorized to join conversation")]) ∧
      ∀ room, Effect.joinRoom room ∉ (joinConversation st userId cid ouid).2) ∧
    (∀ (st : Store) (userId cid ouid : String) (conv : Conversation), cid ≠ "" →
      findById st.conversations cid = some conv →
      userId ∉ conv.participants →
      joinConversation st userId cid ouid =
        (st, [.emitSelf (.joinError "Not authorized to join conversation")]) ∧
      ∀ room, Effect.joinRoom room ∉ (joinConversation st userId cid ouid).2) ∧
    (∀ (st : Store) (userId : String),
      joinConversation st userId "" "" =
        (st, [.emitSelf (.joinError "otherUserId required if no conversationId")]) ∧
      ∀ room, Effect.joinRoom room ∉ (joinConversation st userId "" "").2) := by
  refine ⟨?_, ?_, ?_⟩
  · intro st userId cid ouid h1 h2
    have hb : (cid == "") = false := beq_eq_false_iff_ne.mpr h1
    constructor
    · simp [joinConversation, hb, h2]
    · intro room
      simp [joinConversation, hb, h2]
  · intro st userId cid ouid conv h1 h2 h3
    have hb : (cid == "") = false := beq_eq_false_iff_ne.mpr h1
    constructor
    · simp [joinConversation, hb, h2, h3]
    · intro room
      simp [joinConversation, hb, h2, h3]
  · intro st userId
    constructor
    · simp [joinConversation]
    · intro room
      simp [joinConversation]

/-- C6 witness: a non-participant caller on the demo store, and the
empty-payload case. -/
theorem join_conversation_error_paths_witness :
    (joinConversation demoStore "intruder" "c0" "" =
      (demoStore, [.emitSelf (.joinError "Not authorized to join conversation")]) ∧
      ∀ room, Effect.joinRoom room ∉ (joinConversation demoStore "intruder" "c0" "").2) ∧
    (joinConversation demoStore "u1" "" "" =
      (demoStore,
        [.emitSelf (.joinError "otherUserId required if no conversationId")]) ∧
      ∀ room, Effect.joinRoom room ∉ (joinConversation demoStore "u1" "" "").2) :=
  ⟨join_conversation_error_paths.2.1 demoStore "intruder" "c0" ""
      ⟨"c0", ["u1", "u2"], none⟩ (by decide) rfl (by decide),
   join_conversation_error_paths.2.2 demoStore "u1"⟩

/-- C9: every room actually joined by `join_conversation` belongs to a
conversation, present in the resulting store, whose participant set contains
the caller's authenticated `userId` — on the `conversationId` path via the
membership check, on the `otherUserId` path by construction of
`getOrCreateConversation`. -/
theorem join_conversation_caller_in_participants
    (st : Store) (userId cid ouid room : String)
    (h : Effect.joinRoom room ∈ (joinConversation st userId cid ouid).2) :
    ∃ c, c ∈ (joinConversation st userId cid ouid).1.conversations ∧
      room = "conversation:" ++ c.id ∧ userId ∈ c.participants := by
  by_cases h1 : cid = ""
  · subst h1
    by_cases h2 : ouid = ""
    · subst h2
      simp [joinConversation] at h
    · have hb2 : (ouid == "") = false := beq_eq_false_iff_ne.mpr h2
      have hred : joinConversation st userId "" ouid =
          ((getOrCreateConversation st userId ouid).1,
           [.joinRoom ("conversation:" ++ (getOrCreateConversation st userId ouid).2.id),
            .emitSelf (.joinedConversation (getOrCreateConversation st userId ouid).2.id)]) := by
        simp [joinConversation, hb2]
      cases hg : st.conversations.find?
          (fun c => c.participants.contains userId && c.participants.contains ouid) with
      | some conv =>
        have hgoc : getOrCreateConversation st userId ouid = (st, conv) := by
          unfold getOrCreateConversation
          rw [hg]
        rw [hred, hgoc] at h ⊢
        simp only [List.mem_cons, List.mem_singleton] at h
        rcases h with h | h
        · refine ⟨conv, List.mem_of_find?_eq_some hg, ?_, ?_⟩
          · exact (Effect.joinRoom.injEq _ _).mp h
          · have hp := List.find?_some hg
            have : conv.participants.contains userId = true := by
              exact (Bool.and_eq_true _ _).mp hp |>.1
            simpa using this
        · exact absurd h (by simp)
      | none =>
        have hgoc : getOrCreateConversation st userId ouid =
            ({ st with
                conversations := st.conversations ++
                  [⟨genConvId st.nextConvId, [userId, ouid], none⟩]
                nextConvId := st.nextConvId + 1 },
             ⟨genConvId st.nextConvId, [userId, ouid], none⟩) := by
          unfold getOrCreateConversation
          rw [hg]
        rw [hred, hgoc] at h ⊢
        simp only [List.mem_cons, List.mem_singleton] at h
        rcases h with h | h
        · refine ⟨⟨genConvId st.nextConvId, [userId, ouid], none⟩, by simp, ?_, by simp⟩
          exact (Effect.joinRoom.injEq _ _).mp h
        · exact absurd h (by simp)
  · have hb1 : (cid == "") = false := beq_eq_false_iff_ne.mpr h1
    cases hf : findById st.conversations cid with
    | none => simp [joinConversation, hb1, hf] at h
    | some conv =>
      by_cases hm : userId ∈ conv.participants
      · refine ⟨conv, ?_, ?_, hm⟩
        · simpa [joinConversation, hb1, hf, hm] using
            List.mem_of_find?_eq_some hf
        · have hid : conv.id = cid := by
            have := List.find?_some hf
            simpa using this
          simp [joinConversation, hb1, hf, hm] at h
          rw [h, hid]
      · simp [joinConversation, hb1, hf, hm] at h

/-- C9 witness: joining by `otherUserId` on the empty store; the created
conversation contains the caller. -/
theorem join_conversation_caller_in_participants_witness :
    ∃ c, c ∈ (joinConversation emptyStore "u1" "" "u9").1.conversations ∧
      "conversation:conv0" = "conversation:" ++ c.id ∧ "u1" ∈ c.participants :=
  join_conversation_caller_in_participants emptyStore "u1" "" "u9"
    "conversation:conv0" (by decide)

/-- When the store holds exactly one conversation and it contains both users,
`getOrCreateConversation` finds it and leaves the store unchanged. -/
theorem getOrCreate_found (st : Store) (A B : String) (c : Conversation)
    (hc : st.conversations = [c]) (hA : A ∈ c.participants)
    (hB : B ∈ c.participants) :
    getOrCreateConversation st A B = (st, c) := by
  have hA' : c.participants.contains A = true := by simpa using hA
  have hB' : c.participants.contains B = true := by simpa using hB
  unfold getOrCreateConversation
  rw [hc]
  simp only [List.find?_cons, hA', hB', Bool.and_self, Bool.and_true]

/-- Once the pair's conversation is the sole conversation in the store, every
further call for the pair (in either argument order) returns it and changes
nothing. -/
theorem iterCalls_stable (A B : String) (orders : List Bool) (st : Store)
    (c : Conversation) (hc : st.conversations = [c]) (hA : A ∈ c.participants)
    (hB : B ∈ c.participants) :
    iterCalls A B orders st = (st, List.replicate orders.length c.id) := by
  induction orders with
  | nil => simp [iterCalls]
  | cons b rest ih =>
    cases b <;>
      simp [iterCalls, getOrCreate_found st A B c hc hA hB,
        getOrCreate_found st B A c hc hB hA, ih, List.replicate_succ]

/-- C3: starting from an empty store, any non-empty sequence of sequential
`getOrCreateConversation` calls with arguments `(A, B)` or `(B, A)` returns
one and the same conversation identifier at every call, and afterwards
exactly one conversation whose participant set is the pair of `A` and `B`
exists in the store. -/
theorem getOrCreateConversation_idempotent_unique
    (A B : String) (orders : List Bool) (h : orders ≠ []) :
    (∃ cid, ∀ x ∈ (iterCalls A B orders emptyStore).2, x = cid) ∧
    ((iterCalls A B orders emptyStore).1.conversations.countP
      (fun c => sameParticipantSet c A B)) = 1 := by
  cases orders with
  | nil => exact absurd rfl h
  | cons b rest =>
    cases b with
    | true =>
      have h1 : getOrCreateConversation emptyStore A B =
          (⟨[⟨genConvId 0, [A, B], none⟩], [], 1, 0⟩,
           ⟨genConvId 0, [A, B], none⟩) := rfl
      have h2 := iterCalls_stable A B rest
          ⟨[⟨genConvId 0, [A, B], none⟩], [], 1, 0⟩
          ⟨genConvId 0, [A, B], none⟩ rfl (by simp) (by simp)
      constructor
      · refine ⟨genConvId 0, ?_⟩
        intro x hx
        simp [iterCalls, h1, h2] at hx
        rcases hx with hx | ⟨-, hx⟩ <;> exact hx
      · simp [iterCalls, h1, h2, sameParticipantSet]
    | false =>
      have h1 : getOrCreateConversation emptyStore B A =
          (⟨[⟨genConvId 0, [B, A], none⟩], [], 1, 0⟩,
           ⟨genConvId 0, [B, A], none⟩) := rfl
      have h2 := iterCalls_stable A B rest
          ⟨[⟨genConvId 0, [B, A], none⟩], [], 1, 0⟩
          ⟨genConvId 0, [B, A], none⟩ rfl (by simp) (by simp)
      constructor
      · refine ⟨genConvId 0, ?_⟩
        intro x hx
        simp [iterCalls, h1, h2] at hx
        rcases hx with hx | ⟨-, hx⟩ <;> exact hx
      · simp [iterCalls, h1, h2, sameParticipantSet]

/-- C3 witness: three calls, mixed argument orders. -/
theorem getOrCreateConversation_idempotent_unique_witness :
    (∃ cid, ∀ x ∈ (iterCalls "u1" "u2" [true, false, true] emptyStore).2, x = cid) ∧
    ((iterCalls "u1" "u2" [true, false, true] emptyStore).1.conversations.countP
      (fun c => sameParticipantSet c "u1" "u2")) = 1 :=
  getOrCreateConversation_idempotent_unique "u1" "u2" [true, false, true]
    (by decide)

/-- C4: an absent `accessToken` cookie rejects the handshake with
`Unauthorized`; a present but invalid/expired/malformed token rejects it with
`Forbidden`; and a connection whose handshake verification failed produces no
effects at all — it joins no room, receives no protocol events, and none of
`join_conversation`, `send_message`, `message_read` runs for it. -/
theorem handshake_rejection_blocks_protocol :
    (∀ verify : String → Option String,
      verifyConnection none verify = .error .Unauthorized) ∧
    (∀ (verify : String → Option String) (t : String), t ≠ "" →
      verify t = none → verifyConnection (some t) verify = .error .Forbidden) ∧
    (∀ (verify : String → Option String) (cookieToken : Option String)
      (st : Store) (ops : List ClientOp) (e : AuthError),
      verifyConnection cookieToken verify = .error e →
      serverSession verify cookieToken st ops = (st, [])) := by
  refine ⟨fun verify => rfl, ?_, ?_⟩
  · intro verify t ht hv
    have hb : (t == "") = false := beq_eq_false_iff_ne.mpr ht
    simp [verifyConnection, hb, hv]
  · intro verify cookieToken st ops e hrej
    simp [serverSession, hrej]

/-- C4 witness: a rejected token on a session that attempts all three
operations. -/
theorem handshake_rejection_blocks_protocol_witness :
    verifyConnection none (fun _ => none) = .error .Unauthorized ∧
    verifyConnection (some "bad") (fun _ => none) = .error .Forbidden ∧
    serverSession (fun _ => none) (some "bad") demoStore
      [ClientOp.joinConv "c0" "", ClientOp.sendMsg "c0" "hi" none true true,
       ClientOp.msgRead "c0" ["aaaaaaaaaaaa"]] = (demoStore, []) :=
  ⟨handshake_rejection_blocks_protocol.1 _,
   handshake_rejection_blocks_protocol.2.1 _ "bad" (by decide) rfl,
   handshake_rejection_blocks_protocol.2.2 _ _ _ _ .Forbidden
     (handshake_rejection_blocks_protocol.2.1 _ "bad" (by decide) rfl)⟩

/-- Unchanged message lists evolve admissibly. -/
theorem msgsEvolve_refl (ms : List Message) : msgsEvolve ms ms := by
  refine ⟨ms, [], by simp, ?_, by simp⟩
  induction ms with
  | nil => exact List.Forall₂.nil
  | cons m rest ih => exact List.Forall₂.cons (Or.inl rfl) ih

/-- Appending a fresh unseen message is an admissible evolution. -/
theorem msgsEvolve_append (ms : List Message) (m : Message)
    (h : m.seen = false) : msgsEvolve ms (ms ++ [m]) := by
  refine ⟨ms, [m], rfl, ?_, by simpa using h⟩
  induction ms with
  | nil => exact List.Forall₂.nil
  | cons a rest ih => exact List.Forall₂.cons (Or.inl rfl) ih

/-- The `updateMany`-style seen update is an admissible evolution. -/
theorem msgsEvolve_update (ms : List Message) (ids : List String)
    (cid : String) : msgsEvolve ms (updateManySeen ms ids cid) := by
  refine ⟨updateManySeen ms ids cid, [], by simp, ?_, by simp⟩
  induction ms with
  | nil => exact List.Forall₂.nil
  | cons m rest ih =>
    refine List.Forall₂.cons ?_ ih
    by_cases h1 : m.id ∈ ids
    · by_cases h2 : m.conversationId = cid
      · exact Or.inr (by simp [h1, h2])
      · exact Or.inl (by simp [h2])
    · exact Or.inl (by simp [h1])

/-- Re-running the seen update changes nothing. -/
theorem updateManySeen_idem (ms : List Message) (ids : List String)
    (cid : String) :
    updateManySeen (updateManySeen ms ids cid) ids cid =
      updateManySeen ms ids cid := by
  simp only [updateManySeen, List.map_map]
  apply List.map_congr_left
  intro m _
  by_cases h1 : m.id ∈ ids
  · by_cases h2 : m.conversationId = cid
    · simp [Function.comp, h1, h2]
    · simp [Function.comp, h1, h2]
  · simp [Function.comp, h1]

/-- C8: `seen` is monotone.  Messages are created with `seen = false`
(`addMessage`), every handler either leaves each stored message unchanged or
only switches its `seen` flag from false to true (and appends only unseen
messages), and re-issuing `message_read` with the same arguments leaves the
store unchanged — re-marking already-seen messages is idempotent. -/
theorem seen_monotone_invariant :
    (∀ (st : Store) (cid s r content : String),
      ((addMessage st cid s r content).2).seen = false) ∧
    (∀ (st : Store) (userId cid ouid : String),
      msgsEvolve st.messages (joinConversation st userId cid ouid).1.messages) ∧
    (∀ (st : Store) (userId cid content : String) (localId : Option String)
      (hasAck persistOk : Bool),
      msgsEvolve st.messages
        (sendMessage st userId cid content localId hasAck persistOk).1.messages) ∧
    (∀ (st : Store) (userId cid : String) (ids : List String),
      msgsEvolve st.messages (messageRead st userId cid ids).1.messages) ∧
    (∀ (st : Store) (userId cid : String) (ids : List String),
      (messageRead (messageRead st userId cid ids).1 userId cid ids).1 =
        (messageRead st userId cid ids).1) := by
  refine ⟨fun st cid s r content => rfl, ?_, ?_, ?_, ?_⟩
  · intro st userId cid ouid
    by_cases h1 : (cid == "") = true
    · by_cases h2 : (ouid == "") = true
      · simpa [joinConversation, h1, h2] using msgsEvolve_refl st.messages
      · have h2' : (ouid == "") = false := by simpa using h2
        cases hg : st.conversations.find?
            (fun c => c.participants.contains userId &&
              c.participants.contains ouid) with
        | some conv =>
          have hgoc : getOrCreateConversation st userId ouid = (st, conv) := by
            unfold getOrCreateConversation
            rw [hg]
          simpa [joinConversation, h1, h2', hgoc] using msgsEvolve_refl st.messages
        | none =>
          have hgoc : getOrCreateConversation st userId ouid =
              ({ st with
                  conversations := st.conversations ++
                    [⟨genConvId st.nextConvId, [userId, ouid], none⟩]
                  nextConvId := st.nextConvId + 1 },
               ⟨genConvId st.nextConvId, [userId, ouid], none⟩) := by
            unfold getOrCreateConversation
            rw [hg]
          simpa [joinConversation, h1, h2', hgoc] using msgsEvolve_refl st.messages
    · have h1' : (cid == "") = false := by simpa using h1
      cases hf : findById st.conversations cid with
      | none => simpa [joinConversation, h1', hf] using msgsEvolve_refl st.messages
      | some conv =>
        by_cases hm : userId ∈ conv.participants <;>
          simpa [joinConversation, h1', hf, hm] using msgsEvolve_refl st.messages
  · intro st userId cid content localId hasAck persistOk
    by_cases h0 : (cid == "" || content == "") = true
    · simpa [sendMessage, h0] using msgsEvolve_refl st.messages
    · have h0' : (cid == "" || content == "") = false := by simpa using h0
      cases hfb : findById st.conversations cid with
      | none => simpa [sendMessage, h0', hfb] using msgsEvolve_refl st.messages
      | some conv =>
        by_cases hmem : userId ∈ conv.participants
        · cases hfo : conv.participants.find? (fun p => p != userId) with
          | none =>
            simpa [sendMessage, h0', hfb, hmem, hfo] using msgsEvolve_refl st.messages
          | some other =>
            cases persistOk with
            | false =>
              simpa [sendMessage, h0', hfb, hmem, hfo] using
                msgsEvolve_refl st.messages
            | true =>
              have : (sendMessage st userId cid content localId hasAck true).1.messages =
                  st.messages ++ [(addMessage st conv.id userId other content).2] := by
                simp [sendMessage, h0', hfb, hmem, hfo, addMessage]
              rw [this]
              exact msgsEvolve_append st.messages _ rfl
        · simpa [sendMessage, h0', hfb, hmem] using msgsEvolve_refl st.messages
  · intro st userId cid ids
    by_cases h0 : (cid == "" || ids.length == 0) = true
    · simpa [messageRead, h0] using msgsEvolve_refl st.messages
    · have h0' : (cid == "" || ids.length == 0) = false := by simpa using h0
      cases hf : findById st.conversations cid with
      | none => simpa [messageRead, h0', hf] using msgsEvolve_refl st.messages
      | some conv =>
        by_cases hm : userId ∈ conv.participants
        · by_cases hv : (ids.filter isValidObjectId).length > 0
          · simpa [messageRead, h0', hf, hm, hv] using
              msgsEvolve_update st.messages ids cid
          · simpa [messageRead, h0', hf, hm, hv] using msgsEvolve_refl st.messages
        · simpa [messageRead, h0', hf, hm] using msgsEvolve_refl st.messages
  · intro st userId cid ids
    by_cases h0 : (cid == "" || ids.length == 0) = true
    · simp [messageRead, h0]
    · have h0' : (cid == "" || ids.length == 0) = false := by simpa using h0
      cases hf : findById st.conversations cid with
      | none => simp [messageRead, h0', hf]
      | some conv =>
        by_cases hm : userId ∈ conv.participants
        · by_cases hv : (ids.filter isValidObjectId).length > 0
          · simp [messageRead, h0', hf, hm, hv, updateManySeen_idem]
          · simp [messageRead, h0', hf, hm, hv]
        · simp [messageRead, h0', hf, hm]

/-- C8 witness: creation is unseen; marking the demo messages read evolves
them admissibly; re-marking changes nothing. -/
theorem seen_monotone_invariant_witness :
    ((addMessage demoStore "c0" "u1" "u2" "hi").2).seen = false ∧
    msgsEvolve demoStoreMsgs.messages
      (messageRead demoStoreMsgs "u2" "c0"
        ["aaaaaaaaaaaa", "bbbbbbbbbbbb"]).1.messages ∧
    (messageRead (messageRead demoStoreMsgs "u2" "c0"
        ["aaaaaaaaaaaa", "bbbbbbbbbbbb"]).1 "u2" "c0"
        ["aaaaaaaaaaaa", "bbbbbbbbbbbb"]).1 =
      (messageRead demoStoreMsgs "u2" "c0" ["aaaaaaaaaaaa", "bbbbbbbbbbbb"]).1 :=
  ⟨seen_monotone_invariant.1 demoStore "c0" "u1" "u2" "hi",
   seen_monotone_invariant.2.2.2.1 demoStoreMsgs "u2" "c0"
     ["aaaaaaaaaaaa", "bbbbbbbbbbbb"],
   seen_monotone_invariant.2.2.2.2 demoStoreMsgs "u2" "c0"
     ["aaaaaaaaaaaa", "bbbbbbbbbbbb"]⟩
